import Mathlib

/-!
# Verification of the VectorOS Revenue Forecasting Engine

Shallow embedding of `src/ai-core/src/services/revenue_forecaster.py`.
Monetary amounts and probabilities are modelled as rationals; Python's
`round(x, n)` (round-half-to-even) is modelled exactly by `pyRound`.
External collaborators (the database fetch and the vector-memory similarity
search) are modelled as explicit inputs; the possibility that the body of
`_forecast_deal` raises is modelled by a Boolean flag selecting the
`except` fallback branch.
-/

namespace VectorOS

/-- A raw deal record as returned by `db.deal.findMany`: `value` and
`probability` are nullable columns. -/
structure RawDeal where
  id : String
  title : String
  value : Option ℚ
  stage : String
  probability : Option ℚ
  company : String
  closeDate : Option String
  createdAt : String
deriving DecidableEq, Repr

/-- A converted deal dict as built by `_get_deals_in_timeframe`. -/
structure Deal where
  id : String
  title : String
  value : ℚ
  stage : String
  probability : ℚ
  company : String
  closeDate : Option String
  createdAt : String
deriving DecidableEq, Repr

/-- A similar historical deal as returned by `memory.find_similar_deals`:
the code reads `d.get("outcome")` and `d.get("similarity_score", 0)`. -/
structure SimilarDeal where
  outcome : Option String
  similarity_score : ℚ
deriving DecidableEq, Repr

/-- The per-deal forecast dict built by `_forecast_deal`. -/
structure ForecastedDeal where
  deal_id : String
  title : String
  company : String
  value : ℚ
  stage : String
  original_probability : ℚ
  adjusted_probability : ℚ
  weighted_value : ℚ
  similar_deals_analyzed : ℕ
  confidence : ℚ
  close_date : Option String
deriving DecidableEq, Repr

/-- One entry of `breakdown_by_stage`. -/
structure StageBreakdown where
  stage : String
  deals : ℕ
  total_value : ℚ
  weighted_value : ℚ
  avg_probability : ℚ
deriving DecidableEq, Repr

/-- The forecast result dict built by `forecast_revenue` (the fields the
claims are about). -/
structure ForecastResult where
  predicted_revenue : ℚ
  confidence : ℚ
  best_case : ℚ
  likely_case : ℚ
  worst_case : ℚ
  pipeline_coverage : ℚ
  revenue_goal : ℚ
  required_pipeline : ℚ
  deals_analyzed : ℕ
  breakdown_by_stage : List StageBreakdown
  forecasted_deals : List ForecastedDeal
deriving DecidableEq, Repr

/-- The Python builtin `round` on a rational: round to the nearest
integer, ties to the even integer (banker rounding). -/
def roundHalfEven (q : ℚ) : ℤ :=
  let n := ⌊q⌋
  let r := q - n
  if r < 1/2 then n
  else if 1/2 < r then n + 1
  else if Even n then n else n + 1

/-- The Python call `round(q, d)`. -/
def pyRound (q : ℚ) (d : ℕ) : ℚ :=
  (roundHalfEven (q * 10 ^ d) : ℚ) / 10 ^ d

/-- The truthiness filter `if d.value and d.value > 0` applied by
`_get_deals_in_timeframe` (line 166): a missing or zero value is falsy. -/
def keepDeal (d : RawDeal) : Bool :=
  match d.value with
  | none => false
  | some v => if v = 0 then false else decide (0 < v)

/-- The dict conversion of `_get_deals_in_timeframe` (lines 154-164):
`"value": d.value or 0`, `"probability": d.probability or 50` (Python `or`
replaces both `None` and `0` by the default). -/
def convertDeal (d : RawDeal) : Deal :=
  { id := d.id
    title := d.title
    value := match d.value with | none => 0 | some v => if v = 0 then 0 else v
    stage := d.stage
    probability := match d.probability with | none => 50 | some p => if p = 0 then 50 else p
    company := d.company
    closeDate := d.closeDate
    createdAt := d.createdAt }

/-- `_get_deals_in_timeframe` after the database query: filter to deals
with a strictly positive value, then convert to dicts.  The query itself
(workspace, stage and closeDate conditions) is external and out of the
embedding. -/
def getDealsInTimeframe (fetched : List RawDeal) : List Deal :=
  (fetched.filter keepDeal).map convertDeal

/-- The count `won = sum(1 for d in similar_deals if d.get("outcome") == "won")`
from `_adjust_probability`. -/
def wonCount (similar_deals : List SimilarDeal) : ℕ :=
  (similar_deals.filter (fun d => d.outcome == some "won")).length

/-- The count `lost = sum(1 for d in similar_deals if d.get("outcome") == "lost")`
from `_adjust_probability`. -/
def lostCount (similar_deals : List SimilarDeal) : ℕ :=
  (similar_deals.filter (fun d => d.outcome == some "lost")).length

/-- `_adjust_probability` (lines 243-276): the current probability is
blended with the historical win rate of similar deals (70/30) and clamped;
with no similar deals, or no won/lost outcomes among them, the current
probability is returned unchanged (and unclamped). -/
def adjustProbability (deal : Deal) (similar_deals : List SimilarDeal) : ℚ :=
  let current_prob := deal.probability / 100
  if similar_deals.isEmpty then current_prob
  else
    let total := wonCount similar_deals + lostCount similar_deals
    if total = 0 then current_prob
    else
      let historical_win_rate : ℚ := (wonCount similar_deals : ℚ) / (total : ℚ)
      let adjusted := current_prob * (7/10) + historical_win_rate * (3/10)
      min (max adjusted 0) 1

/-- The stage bonus table of `_calculate_deal_confidence` (lines 307-313). -/
def stageConfidenceBonus (stage : String) : ℚ :=
  if stage == "lead" then 0
  else if stage == "qualified" then 5/100
  else if stage == "proposal" then 10/100
  else if stage == "negotiation" then 15/100
  else if stage == "closing" then 20/100
  else 0

/-- `_calculate_deal_confidence` (lines 278-317): base 0.5 plus bonuses for
similar-deal count, average similarity score and stage, clamped to [0,1]. -/
def calculateDealConfidence (deal : Deal) (similar_deals : List SimilarDeal) : ℚ :=
  let c1 : ℚ := 1/2
  let c2 :=
    if 10 ≤ similar_deals.length then c1 + 3/10
    else if 5 ≤ similar_deals.length then c1 + 2/10
    else if 2 ≤ similar_deals.length then c1 + 1/10
    else c1
  let c3 :=
    if similar_deals.isEmpty then c2
    else c2 + ((similar_deals.map (fun d => d.similarity_score)).sum
                / (similar_deals.length : ℚ)) * (2/10)
  let c4 := c3 + stageConfidenceBonus deal.stage
  min (max c4 0) 1

/-- `_forecast_deal` (lines 173-241).  `err = true` selects the `except`
fallback branch (lines 226-241), which reuses the original probability and
reports `similar_deals_analyzed = 0`, `confidence = 0.5`; the normal branch
rounds the adjusted probability to 3 digits and the weighted value to 2. -/
def forecastDeal (deal : Deal) (similar_deals : List SimilarDeal) (err : Bool) :
    ForecastedDeal :=
  if err then
    { deal_id := deal.id
      title := deal.title
      company := deal.company
      value := deal.value
      stage := deal.stage
      original_probability := deal.probability / 100
      adjusted_probability := deal.probability / 100
      weighted_value := deal.value * (deal.probability / 100)
      similar_deals_analyzed := 0
      confidence := 1/2
      close_date := deal.closeDate }
  else
    let adjusted_probability := adjustProbability deal similar_deals
    let confidence := calculateDealConfidence deal similar_deals
    let weighted_value := deal.value * adjusted_probability
    { deal_id := deal.id
      title := deal.title
      company := deal.company
      value := deal.value
      stage := deal.stage
      original_probability := deal.probability / 100
      adjusted_probability := pyRound adjusted_probability 3
      weighted_value := pyRound weighted_value 2
      similar_deals_analyzed := similar_deals.length
      confidence := pyRound confidence 2
      close_date := deal.closeDate }

/-- `_calculate_overall_confidence` (lines 319-338): value-weighted average
of per-deal confidences; 0 on an empty list or zero total value. -/
def calculateOverallConfidence (forecasted_deals : List ForecastedDeal) : ℚ :=
  if forecasted_deals.isEmpty then 0
  else
    let total_value := (forecasted_deals.map (fun d => d.value)).sum
    if total_value = 0 then 0
    else (forecasted_deals.map (fun d => d.confidence * d.value)).sum / total_value

/-- The insertion-ordered list of distinct stages, matching Python dict
insertion order in `_breakdown_by_stage`. -/
def stageOrder (forecasted_deals : List ForecastedDeal) : List String :=
  forecasted_deals.foldl
    (fun acc d => if acc.contains d.stage then acc else acc ++ [d.stage]) []

/-- `_breakdown_by_stage` (lines 340-370): group by stage, accumulate
count, total value and weighted value; `avg_probability` is
weighted/total (0 when total is not positive). -/
def breakdownByStage (forecasted_deals : List ForecastedDeal) : List StageBreakdown :=
  (stageOrder forecasted_deals).map (fun s =>
    let group := forecasted_deals.filter (fun d => d.stage == s)
    let tv := (group.map (fun d => d.value)).sum
    let wv := (group.map (fun d => d.weighted_value)).sum
    { stage := s
      deals := group.length
      total_value := tv
      weighted_value := wv
      avg_probability := if 0 < tv then wv / tv else 0 })

/-- `_get_revenue_goal` (lines 372-403): with no workspace deals the goal
defaults to 100000; otherwise it is (sum of truthy values)/12 × days/30,
rounded to 2 digits. -/
def getRevenueGoal (all_deals : List RawDeal) (days : ℚ) : ℚ :=
  if all_deals.isEmpty then 100000
  else
    let total_value :=
      ((all_deals.filterMap (fun d => d.value)).filter (fun v => !(v = 0))).sum
    let avg_per_month := total_value / 12
    let months := days / 30
    pyRound (avg_per_month * months) 2

/-- One engine input: a converted deal together with the external
similarity-search result for it and the exception flag of
`_forecast_deal`. -/
structure DealInput where
  deal : Deal
  sims : List SimilarDeal
  err : Bool
deriving Repr

/-- The aggregation part of `forecast_revenue` (lines 77-124), applied to
the already-forecasted deals: scenario values, confidence, goal/coverage,
breakdown and the top-10 ranking slice. -/
def aggregateForecast (fds : List ForecastedDeal) (all_deals : List RawDeal)
    (days : ℚ) (scenario : String) : ForecastResult :=
  let total_value := (fds.map (fun d => d.value)).sum
  let weighted_value := (fds.map (fun d => d.weighted_value)).sum
  let predicted_revenue :=
    if scenario == "best" then total_value
    else if scenario == "worst" then
      ((fds.filter (fun d => (8:ℚ)/10 < d.adjusted_probability)).map
        (fun d => d.weighted_value)).sum
    else weighted_value
  let overall_confidence := calculateOverallConfidence fds
  let revenue_goal := getRevenueGoal all_deals days
  let pipeline_coverage := if 0 < revenue_goal then total_value / revenue_goal else 0
  { predicted_revenue := pyRound predicted_revenue 2
    confidence := pyRound overall_confidence 2
    best_case := pyRound total_value 2
    likely_case := pyRound weighted_value 2
    worst_case :=
      pyRound (if scenario == "worst" then predicted_revenue
               else weighted_value * (7/10)) 2
    pipeline_coverage := pyRound pipeline_coverage 2
    revenue_goal := revenue_goal
    required_pipeline := revenue_goal * (5/2)
    deals_analyzed := fds.length
    breakdown_by_stage := breakdownByStage fds
    forecasted_deals := fds.take 10 }

/-- `forecast_revenue` (lines 42-128) from the converted deals on: forecast
each deal, then aggregate. -/
def forecastRevenue (inputs : List DealInput) (all_deals : List RawDeal)
    (days : ℚ) (scenario : String) : ForecastResult :=
  aggregateForecast (inputs.map (fun i => forecastDeal i.deal i.sims i.err))
    all_deals days scenario

/-! ## Definitions taken from the specification text

The spec (§2, §4.2-§4.4) describes a Monte-Carlo simulator whose scenario
figures are percentiles of an array of per-trial totals, and a
probability adjuster built from stage and age multipliers.  No such code
exists anywhere in the source; the definitions below follow the words of
the spec so that the claims about them can be compared with the source
functions above. -/

/-- Modelled from the spec (§4.3): the fractional index `q(n-1)/100` of
the q-th percentile in a length-n array. -/
def pctPos (s : List ℚ) (q : ℚ) : ℚ :=
  q * ((s.length : ℚ) - 1) / 100

/-- Modelled from the spec (§4.3): the lower order-statistic index of the
q-th percentile. -/
def pctIdx (s : List ℚ) (q : ℚ) : ℕ :=
  ⌊pctPos s q⌋.toNat

/-- Modelled from the spec (§4.3): the conventional percentile with linear
interpolation between order statistics, applied to an already sorted
array (clamped at the top end, 0 on an empty array as in the degenerate
case of §4.3).  There is no corresponding function in the source. -/
def percentileSorted (s : List ℚ) (q : ℚ) : ℚ :=
  if s.isEmpty then 0
  else
    s.getD (pctIdx s q) 0 +
      (s.getD (pctIdx s q + 1) (s.getD (pctIdx s q) 0) - s.getD (pctIdx s q) 0) *
        (pctPos s q - (pctIdx s q : ℚ))

/-- Modelled from the spec (§4.1 step 2): the claimed stage multiplier
table.  There is no corresponding table in the source adjuster. -/
def specStageMultiplier (stage : String) : ℚ :=
  if stage == "lead" then 7/10
  else if stage == "qualified" then 85/100
  else if stage == "proposal" then 1
  else if stage == "negotiation" then 11/10
  else if stage == "closed_won" then 1
  else if stage == "closed_lost" then 0
  else 1

/-- Modelled from the spec (§4.1 step 3): the claimed age-decay
multiplier, `max(1 - days_old/180, 0.5)`, with `1` when `createdAt` is
missing or malformed.  There is no corresponding code in the source. -/
def specAgeMultiplier (days_old : Option ℚ) : ℚ :=
  match days_old with
  | none => 1
  | some d => max (1 - d / 180) (1/2)

/-- Modelled from the spec (§4.1): the claimed adjusted probability,
`base × stage_mult × age_mult` clamped to [0, 1]. -/
def claimedAdjustedProbability (probability : ℚ) (stage : String)
    (days_old : Option ℚ) : ℚ :=
  min (max (probability / 100 * specStageMultiplier stage * specAgeMultiplier days_old) 0) 1

/-! ## Concrete inputs used by counterexamples and witnesses -/

/-- A converted deal with the given value, stage and probability. -/
def mkSampleDeal (v : ℚ) (stage : String) (p : ℚ) : Deal :=
  { id := "d1", title := "Deal", value := v, stage := stage, probability := p,
    company := "Acme", closeDate := none, createdAt := "2025-01-01T00:00:00" }

/-- An engine input with no similar-deal history and no exception. -/
def mkSampleInput (v : ℚ) (stage : String) (p : ℚ) : DealInput :=
  ⟨mkSampleDeal v stage p, [], false⟩

/-- A raw database deal with the given nullable value and probability. -/
def mkRawDeal (v p : Option ℚ) : RawDeal :=
  { id := "r1", title := "Deal", value := v, stage := "proposal", probability := p,
    company := "Acme", closeDate := none, createdAt := "2025-01-01T00:00:00" }

/-! ## Basic facts about Python rounding -/

theorem roundHalfEven_def (q : ℚ) : roundHalfEven q =
    if q - (⌊q⌋ : ℚ) < 1/2 then ⌊q⌋
    else if 1/2 < q - (⌊q⌋ : ℚ) then ⌊q⌋ + 1
    else if Even ⌊q⌋ then ⌊q⌋ else ⌊q⌋ + 1 := rfl

theorem roundHalfEven_intCast (n : ℤ) : roundHalfEven (n : ℚ) = n := by
  rw [roundHalfEven_def, Int.floor_intCast]
  norm_num

theorem roundHalfEven_of_lt_half (n : ℤ) (q : ℚ) (hl : (n : ℚ) ≤ q)
    (hu : q < (n : ℚ) + 1/2) : roundHalfEven q = n := by
  have hf : ⌊q⌋ = n := Int.floor_eq_iff.mpr ⟨hl, by linarith⟩
  rw [roundHalfEven_def, hf, if_pos (by linarith : q - (n : ℚ) < 1/2)]

theorem roundHalfEven_of_half_lt (n : ℤ) (q : ℚ) (hl : (n : ℚ) + 1/2 < q)
    (hu : q < (n : ℚ) + 1) : roundHalfEven q = n + 1 := by
  have hf : ⌊q⌋ = n := Int.floor_eq_iff.mpr ⟨by linarith, hu⟩
  rw [roundHalfEven_def, hf,
    if_neg (by push_neg; linarith : ¬ (q - (n : ℚ) < 1/2)),
    if_pos (by linarith : 1/2 < q - (n : ℚ))]

theorem roundHalfEven_mono {q r : ℚ} (h : q ≤ r) :
    roundHalfEven q ≤ roundHalfEven r := by
  have hmn : ⌊q⌋ ≤ ⌊r⌋ := Int.floor_mono h
  rw [roundHalfEven_def, roundHalfEven_def]
  rcases eq_or_lt_of_le hmn with heq | hlt
  · rw [heq]
    have hq1 : (⌊r⌋ : ℚ) ≤ q := by rw [← heq]; exact Int.floor_le q
    have hqr : q - (⌊r⌋ : ℚ) ≤ r - (⌊r⌋ : ℚ) := by linarith
    split_ifs with h1 h2 h3 h4 h5 h6 <;> first | omega | linarith
  · split_ifs <;> omega

theorem roundHalfEven_natCast (n : ℕ) : roundHalfEven (n : ℚ) = n := by
  have h := roundHalfEven_intCast (n : ℤ)
  rwa [Int.cast_natCast] at h

theorem roundHalfEven_zero : roundHalfEven 0 = 0 := by
  have h := roundHalfEven_natCast 0
  simpa using h

theorem roundHalfEven_one : roundHalfEven 1 = 1 := by
  have h := roundHalfEven_natCast 1
  simpa using h

theorem roundHalfEven_ofNat (n : ℕ) [n.AtLeastTwo] :
    roundHalfEven (no_index (OfNat.ofNat n) : ℚ) = OfNat.ofNat n := by
  have h := roundHalfEven_natCast n
  exact_mod_cast h

theorem roundHalfEven_neg_ofNat (n : ℕ) [n.AtLeastTwo] :
    roundHalfEven (-(no_index (OfNat.ofNat n)) : ℚ) = -(OfNat.ofNat n) := by
  have h := roundHalfEven_intCast (-(n : ℤ))
  rw [Int.cast_neg] at h
  exact_mod_cast h

theorem pyRound_intMul (q : ℚ) (d : ℕ) (n : ℤ) (h : q * 10 ^ d = (n : ℚ)) :
    pyRound q d = q := by
  unfold pyRound
  rw [h, roundHalfEven_intCast, ← h]
  field_simp

theorem pyRound_mono {q r : ℚ} (d : ℕ) (h : q ≤ r) : pyRound q d ≤ pyRound r d := by
  unfold pyRound
  have hp : (0 : ℚ) < 10 ^ d := by positivity
  have h1 : q * 10 ^ d ≤ r * 10 ^ d := mul_le_mul_of_nonneg_right h (le_of_lt hp)
  have h2 : roundHalfEven (q * 10 ^ d) ≤ roundHalfEven (r * 10 ^ d) :=
    roundHalfEven_mono h1
  have h3 : ((roundHalfEven (q * 10 ^ d) : ℤ) : ℚ) ≤ ((roundHalfEven (r * 10 ^ d) : ℤ) : ℚ) := by
    exact_mod_cast h2
  rw [div_eq_mul_inv, div_eq_mul_inv]
  exact mul_le_mul_of_nonneg_right h3 (by positivity)

theorem pyRound_zero (d : ℕ) : pyRound 0 d = 0 := by
  apply pyRound_intMul 0 d 0
  simp

theorem pyRound_one (d : ℕ) : pyRound 1 d = 1 := by
  apply pyRound_intMul 1 d (10 ^ d)
  push_cast
  ring

theorem pyRound_nonneg {q : ℚ} (d : ℕ) (h : 0 ≤ q) : 0 ≤ pyRound q d := by
  have := pyRound_mono d h
  rwa [pyRound_zero] at this

theorem pyRound_le_one {q : ℚ} (d : ℕ) (h : q ≤ 1) : pyRound q d ≤ 1 := by
  have := pyRound_mono d h
  rwa [pyRound_one] at this

/-! ## Structural facts about the per-deal forecast -/

theorem forecastDeal_value (deal : Deal) (sims : List SimilarDeal) (err : Bool) :
    (forecastDeal deal sims err).value = deal.value := by
  unfold forecastDeal
  split <;> rfl

theorem adjustProbability_nonneg (deal : Deal) (sims : List SimilarDeal)
    (h : 0 ≤ deal.probability) : 0 ≤ adjustProbability deal sims := by
  simp only [adjustProbability]
  have hb : (0 : ℚ) ≤ deal.probability / 100 := by positivity
  split_ifs <;>
    first
      | exact hb
      | exact le_min (le_max_right _ _) zero_le_one

theorem adjustProbability_le_one (deal : Deal) (sims : List SimilarDeal)
    (h : deal.probability ≤ 100) : adjustProbability deal sims ≤ 1 := by
  simp only [adjustProbability]
  have hb : deal.probability / 100 ≤ 1 := by
    rw [div_le_one (by norm_num : (0:ℚ) < 100)]
    exact h
  split_ifs <;>
    first
      | exact hb
      | exact min_le_right _ _

theorem calculateDealConfidence_nonneg (deal : Deal) (sims : List SimilarDeal) :
    0 ≤ calculateDealConfidence deal sims := by
  unfold calculateDealConfidence
  exact le_min (le_max_right _ _) zero_le_one

theorem calculateDealConfidence_le_one (deal : Deal) (sims : List SimilarDeal) :
    calculateDealConfidence deal sims ≤ 1 := by
  unfold calculateDealConfidence
  exact min_le_right _ _

theorem forecastDeal_confidence_nonneg (deal : Deal) (sims : List SimilarDeal) (err : Bool) :
    0 ≤ (forecastDeal deal sims err).confidence := by
  unfold forecastDeal
  split
  · norm_num
  · exact pyRound_nonneg 2 (calculateDealConfidence_nonneg deal sims)

theorem forecastDeal_confidence_le_one (deal : Deal) (sims : List SimilarDeal) (err : Bool) :
    (forecastDeal deal sims err).confidence ≤ 1 := by
  unfold forecastDeal
  split
  · norm_num
  · exact pyRound_le_one 2 (calculateDealConfidence_le_one deal sims)

theorem forecastDeal_weighted_nonneg (deal : Deal) (sims : List SimilarDeal) (err : Bool)
    (hv : 0 ≤ deal.value) (hp : 0 ≤ deal.probability) :
    0 ≤ (forecastDeal deal sims err).weighted_value := by
  unfold forecastDeal
  split
  · have : (0:ℚ) ≤ deal.probability / 100 := by positivity
    exact mul_nonneg hv this
  · exact pyRound_nonneg 2 (mul_nonneg hv (adjustProbability_nonneg deal sims hp))

theorem forecastDeal_weighted_le_value (deal : Deal) (sims : List SimilarDeal) (err : Bool)
    (hv : 0 ≤ deal.value) (hcent : ∃ n : ℤ, deal.value * 100 = (n : ℚ))
    (hp1 : deal.probability ≤ 100) :
    (forecastDeal deal sims err).weighted_value ≤ deal.value := by
  unfold forecastDeal
  split
  · have h1 : deal.probability / 100 ≤ 1 := by
      rw [div_le_one (by norm_num : (0:ℚ) < 100)]
      exact hp1
    exact mul_le_of_le_one_right hv h1
  · obtain ⟨n, hn⟩ := hcent
    have e : pyRound deal.value 2 = deal.value := by
      apply pyRound_intMul deal.value 2 n
      simpa using hn
    calc pyRound (deal.value * adjustProbability deal sims) 2
        ≤ pyRound deal.value 2 :=
          pyRound_mono 2 (mul_le_of_le_one_right hv (adjustProbability_le_one deal sims hp1))
      _ = deal.value := e

/-! ## C2: the claimed stage-multiplier and age-decay adjuster -/

/-- C2, counterexample.  The spec claims the adjusted probability of a
fresh lead deal with probability 100 is 1.0 × 0.7 × 1.0 = 0.7; the source
adjuster has no stage or age factor and returns 1. -/
theorem c2_stage_age_counterexample :
    adjustProbability (mkSampleDeal 100 "lead" 100) [] = 1 ∧
    claimedAdjustedProbability 100 "lead" (some 0) = 7/10 ∧
    adjustProbability (mkSampleDeal 100 "lead" 100) [] ≠
      claimedAdjustedProbability 100 "lead" (some 0) := by
  refine ⟨?_, ?_, ?_⟩ <;>
    norm_num [adjustProbability, claimedAdjustedProbability, specStageMultiplier,
      specAgeMultiplier, mkSampleDeal]

/-- C2, amended.  The source adjuster ignores stage and age entirely: it
returns `probability/100` when the similar deals have no won/lost
outcomes, and otherwise the 70/30 blend of `probability/100` with the
historical win rate, clamped to [0, 1]. -/
theorem c2_adjusted_probability_theorem (deal : Deal) (sims : List SimilarDeal) :
    (∀ s c : String,
        adjustProbability { deal with stage := s, createdAt := c } sims =
          adjustProbability deal sims) ∧
    adjustProbability deal sims =
      (if wonCount sims + lostCount sims = 0 then deal.probability / 100
       else min (max (deal.probability / 100 * (7/10) +
              ((wonCount sims : ℚ) / ((wonCount sims : ℚ) + (lostCount sims : ℚ))) * (3/10))
            0) 1) := by
  constructor
  · intro s c
    rfl
  · simp only [adjustProbability]
    by_cases hemp : sims.isEmpty = true
    · have hnil : sims = [] := List.isEmpty_iff.mp hemp
      subst hnil
      simp [wonCount, lostCount]
    · rw [if_neg hemp]
      by_cases htot : wonCount sims + lostCount sims = 0
      · rw [if_pos htot, if_pos htot]
      · rw [if_neg htot, if_neg htot, Nat.cast_add]

/-! ## C5: forecast of an empty deal list -/

/-- C5, counterexample.  On an empty deal list the monetary fields
`revenue_goal` and `required_pipeline` are not zero: with an empty
workspace the goal defaults to 100000 and the required pipeline to
250000. -/
theorem c5_empty_goal_counterexample :
    (forecastRevenue [] [] 30 "likely").revenue_goal = 100000 ∧
    (forecastRevenue [] [] 30 "likely").required_pipeline = 250000 ∧
    (forecastRevenue [] [] 30 "likely").revenue_goal ≠ 0 := by
  refine ⟨?_, ?_, ?_⟩ <;>
    norm_num [forecastRevenue, aggregateForecast, getRevenueGoal]

/-- C5, amended.  On an empty deal list the forecast is not an error and
every scenario value, the predicted revenue, the confidence, the coverage
and the deal count are 0 and the breakdown and ranking are empty; but the
revenue goal is the `_get_revenue_goal` estimate (100000 by default), not
0, and the required pipeline is 2.5 times it. -/
theorem c5_empty_forecast_theorem (all_deals : List RawDeal) (days : ℚ) (scenario : String) :
    (forecastRevenue [] all_deals days scenario).best_case = 0 ∧
    (forecastRevenue [] all_deals days scenario).likely_case = 0 ∧
    (forecastRevenue [] all_deals days scenario).worst_case = 0 ∧
    (forecastRevenue [] all_deals days scenario).predicted_revenue = 0 ∧
    (forecastRevenue [] all_deals days scenario).confidence = 0 ∧
    (forecastRevenue [] all_deals days scenario).pipeline_coverage = 0 ∧
    (forecastRevenue [] all_deals days scenario).deals_analyzed = 0 ∧
    (forecastRevenue [] all_deals days scenario).breakdown_by_stage = [] ∧
    (forecastRevenue [] all_deals days scenario).forecasted_deals = [] ∧
    (forecastRevenue [] all_deals days scenario).revenue_goal =
      getRevenueGoal all_deals days ∧
    (forecastRevenue [] all_deals days scenario).required_pipeline =
      getRevenueGoal all_deals days * (5/2) := by
  refine ⟨?_, ?_, ?_, ?_, ?_, ?_, ?_, ?_, ?_, ?_, ?_⟩ <;>
    simp [forecastRevenue, aggregateForecast, calculateOverallConfidence,
      breakdownByStage, stageOrder, pyRound_zero]

/-! ## C10: the per-deal exception fallback -/

/-- C10.  When forecasting one deal raises, the fallback record keeps the
original probability as the adjusted probability, weights the value by
it, reports zero similar deals and confidence 0.5; the whole forecast
still succeeds and counts and ranks the deal. -/
theorem c10_fallback_theorem (deal : Deal) (sims : List SimilarDeal) :
    (forecastDeal deal sims true).adjusted_probability = deal.probability / 100 ∧
    (forecastDeal deal sims true).original_probability = deal.probability / 100 ∧
    (forecastDeal deal sims true).weighted_value =
      deal.value * (deal.probability / 100) ∧
    (forecastDeal deal sims true).similar_deals_analyzed = 0 ∧
    (forecastDeal deal sims true).confidence = 1/2 ∧
    ∀ (pre post : List DealInput) (all_deals : List RawDeal) (days : ℚ) (scenario : String),
      (forecastRevenue (pre ++ ⟨deal, sims, true⟩ :: post) all_deals days scenario).deals_analyzed
          = pre.length + 1 + post.length ∧
      (forecastRevenue (pre ++ ⟨deal, sims, true⟩ :: post) all_deals days scenario).forecasted_deals
          = ((pre.map (fun i => forecastDeal i.deal i.sims i.err)) ++
              forecastDeal deal sims true ::
                (post.map (fun i => forecastDeal i.deal i.sims i.err))).take 10 := by
  refine ⟨rfl, rfl, rfl, rfl, rfl, ?_⟩
  intro pre post all_deals days scenario
  constructor
  · simp [forecastRevenue, aggregateForecast]
    omega
  · simp [forecastRevenue, aggregateForecast]

/-! ## Facts about the fetch-time filter and conversion -/

theorem adjustProbability_of_no_outcomes (deal : Deal) (sims : List SimilarDeal)
    (htot : wonCount sims + lostCount sims = 0) :
    adjustProbability deal sims = deal.probability / 100 := by
  simp only [adjustProbability]
  by_cases h1 : sims.isEmpty = true
  · rw [if_pos h1]
  · rw [if_neg h1, if_pos htot]

theorem keepDeal_iff (r : RawDeal) :
    keepDeal r = true ↔ ∃ v, r.value = some v ∧ 0 < v := by
  unfold keepDeal
  rcases hv : r.value with _ | v
  · simp
  · simp only [Option.some.injEq]
    constructor
    · intro h
      by_cases h0 : v = 0
      · rw [if_pos h0] at h
        exact absurd h (by simp)
      · rw [if_neg h0] at h
        exact ⟨v, rfl, of_decide_eq_true h⟩
    · rintro ⟨w, hw, hpos⟩
      subst hw
      rw [if_neg (ne_of_gt hpos)]
      exact decide_eq_true hpos

theorem convertDeal_value_pos (r : RawDeal) (h : keepDeal r = true) :
    0 < (convertDeal r).value := by
  obtain ⟨v, hv, hpos⟩ := (keepDeal_iff r).mp h
  unfold convertDeal
  rw [hv]
  simp only []
  split_ifs with h0
  · exact absurd h0 (ne_of_gt hpos)
  · exact hpos

theorem mem_getDealsInTimeframe_value_pos (fetched : List RawDeal) (d : Deal)
    (hd : d ∈ getDealsInTimeframe fetched) : 0 < d.value := by
  unfold getDealsInTimeframe at hd
  obtain ⟨r, hr, rfl⟩ := List.mem_map.mp hd
  exact convertDeal_value_pos r (List.of_mem_filter hr)

/-! ## C6: a deal with probability 0 -/

/-- C6, counterexample.  A probability-0 deal does not leave every
scenario value unchanged when removed: `best_case` is the total pipeline
value and counts the full value of the impossible deal. -/
theorem c6_removal_counterexample :
    (mkSampleDeal 100 "proposal" 0).probability = 0 ∧
    (forecastRevenue [⟨mkSampleDeal 100 "proposal" 0, [], false⟩] [] 30 "likely").best_case
      = 100 ∧
    (forecastRevenue [] [] 30 "likely").best_case = 0 ∧
    (forecastRevenue [⟨mkSampleDeal 100 "proposal" 0, [], false⟩] [] 30 "likely").best_case
      ≠ (forecastRevenue [] [] 30 "likely").best_case := by
  have h1 : (forecastRevenue [⟨mkSampleDeal 100 "proposal" 0, [], false⟩] [] 30
      "likely").best_case = 100 := by
    norm_num [forecastRevenue, aggregateForecast, forecastDeal, adjustProbability,
      calculateDealConfidence, stageConfidenceBonus, mkSampleDeal, pyRound,
      roundHalfEven_zero, roundHalfEven_one, roundHalfEven_ofNat]
  have h2 : (forecastRevenue [] [] 30 "likely").best_case = 0 := by
    norm_num [forecastRevenue, aggregateForecast, pyRound, roundHalfEven_zero]
  refine ⟨rfl, h1, h2, ?_⟩
  rw [h1, h2]
  norm_num

/-- C6, amended.  A deal whose probability is 0 and whose similar-deal
history has no won/lost outcomes has weighted value 0, and removing it
from the input leaves `likely_case` and `worst_case` unchanged;
`best_case` does change because it counts the full value of every deal. -/
theorem c6_zero_probability_theorem (deal : Deal) (sims : List SimilarDeal) (err : Bool)
    (rest : List DealInput) (all_deals : List RawDeal) (days : ℚ) (scenario : String)
    (hp : deal.probability = 0) (hsim : wonCount sims + lostCount sims = 0) :
    (forecastDeal deal sims err).weighted_value = 0 ∧
    (forecastRevenue (⟨deal, sims, err⟩ :: rest) all_deals days scenario).likely_case =
      (forecastRevenue rest all_deals days scenario).likely_case ∧
    (forecastRevenue (⟨deal, sims, err⟩ :: rest) all_deals days scenario).worst_case =
      (forecastRevenue rest all_deals days scenario).worst_case := by
  have hadj : adjustProbability deal sims = 0 := by
    rw [adjustProbability_of_no_outcomes deal sims hsim, hp, zero_div]
  have hw : (forecastDeal deal sims err).weighted_value = 0 := by
    cases err <;> simp [forecastDeal, hp, hadj, pyRound_zero]
  have hap : (forecastDeal deal sims err).adjusted_probability = 0 := by
    cases err <;> simp [forecastDeal, hp, hadj, pyRound_zero]
  refine ⟨hw, ?_, ?_⟩
  · norm_num [forecastRevenue, aggregateForecast, hw]
  · rcases eq_or_ne scenario "worst" with rfl | hsc
    · have hne : ¬ ("worst" : String) = "best" := by decide
      norm_num [forecastRevenue, aggregateForecast, hw, hap, hne]
    · norm_num [forecastRevenue, aggregateForecast, hw, hap, hsc]

/-- C6, witness for the amended theorem at a concrete input. -/
theorem c6_zero_probability_witness :
    (forecastDeal (mkSampleDeal 100 "proposal" 0) [] false).weighted_value = 0 ∧
    (forecastRevenue (⟨mkSampleDeal 100 "proposal" 0, [], false⟩ ::
        [mkSampleInput 40 "lead" 50]) [] 30 "likely").likely_case =
      (forecastRevenue [mkSampleInput 40 "lead" 50] [] 30 "likely").likely_case ∧
    (forecastRevenue (⟨mkSampleDeal 100 "proposal" 0, [], false⟩ ::
        [mkSampleInput 40 "lead" 50]) [] 30 "likely").worst_case =
      (forecastRevenue [mkSampleInput 40 "lead" 50] [] 30 "likely").worst_case :=
  c6_zero_probability_theorem (mkSampleDeal 100 "proposal" 0) [] false
    [mkSampleInput 40 "lead" 50] [] 30 "likely" rfl rfl

/-! ## C7: rejection of negative or non-finite value/probability -/

/-- C7, counterexample.  A deal with a negative probability is not
excluded: it passes the fetch filter, is counted in `deals_analyzed`, and
its negative weighted value flows into `likely_case`.  No excluded-deal
count exists anywhere in the result. -/
theorem c7_negative_probability_counterexample :
    getDealsInTimeframe [mkRawDeal (some 100) (some (-50))] =
      [convertDeal (mkRawDeal (some 100) (some (-50)))] ∧
    (convertDeal (mkRawDeal (some 100) (some (-50)))).probability = -50 ∧
    (forecastRevenue ((getDealsInTimeframe [mkRawDeal (some 100) (some (-50))]).map
        (fun d => DealInput.mk d [] false)) [] 30 "likely").deals_analyzed = 1 ∧
    (forecastRevenue ((getDealsInTimeframe [mkRawDeal (some 100) (some (-50))]).map
        (fun d => DealInput.mk d [] false)) [] 30 "likely").likely_case = -50 := by
  refine ⟨?_, ?_, ?_, ?_⟩ <;>
    norm_num [forecastRevenue, aggregateForecast, forecastDeal, adjustProbability,
      getDealsInTimeframe, keepDeal, convertDeal, mkRawDeal,
      pyRound, roundHalfEven_zero, roundHalfEven_one, roundHalfEven_ofNat,
      roundHalfEven_neg_ofNat]

/-- C7, amended.  The fetch filter only screens the value: a deal is kept
iff its value is present and strictly positive (so every converted deal
has positive value), while the probability is passed through unvalidated,
and no count of excluded deals is reported. -/
theorem c7_value_screen_theorem (fetched : List RawDeal) :
    (∀ d ∈ getDealsInTimeframe fetched, 0 < d.value) ∧
    (∀ r : RawDeal, keepDeal r = true ↔ ∃ v, r.value = some v ∧ 0 < v) ∧
    (∀ r ∈ fetched, keepDeal r = true → convertDeal r ∈ getDealsInTimeframe fetched) ∧
    (∀ r : RawDeal, ∀ p, r.probability = some p → p ≠ 0 →
      (convertDeal r).probability = p) := by
  refine ⟨mem_getDealsInTimeframe_value_pos fetched, keepDeal_iff, ?_, ?_⟩
  · intro r hr hk
    unfold getDealsInTimeframe
    exact List.mem_map_of_mem _ (List.mem_filter_of_mem hr hk)
  · intro r p hp hne
    unfold convertDeal
    rw [hp]
    simp [hne]

/-- C7, witness for the amended theorem at a concrete input. -/
theorem c7_value_screen_witness :
    0 < (convertDeal (mkRawDeal (some 100) (some (-50)))).value ∧
    convertDeal (mkRawDeal (some 100) (some (-50))) ∈
      getDealsInTimeframe [mkRawDeal (some 100) (some (-50))] ∧
    (convertDeal (mkRawDeal (some 100) (some (-50)))).probability = -50 := by
  have h := c7_value_screen_theorem [mkRawDeal (some 100) (some (-50))]
  have hmem := h.2.2.1 (mkRawDeal (some 100) (some (-50))) (by simp) (by rfl)
  exact ⟨h.1 _ hmem, hmem, h.2.2.2 (mkRawDeal (some 100) (some (-50))) (-50) rfl (by norm_num)⟩

/-! ## C9: silent dropping of valueless deals, probability default -/

/-- C9.  The fetch conversion drops exactly the deals whose value is
missing, zero or negative, so every deal reaching the forecast has a
strictly positive value, and a missing probability is defaulted to 50. -/
theorem c9_filter_default_theorem (fetched : List RawDeal) :
    getDealsInTimeframe fetched = (fetched.filter keepDeal).map convertDeal ∧
    (∀ d ∈ getDealsInTimeframe fetched, 0 < d.value) ∧
    (∀ r : RawDeal, r.probability = none → (convertDeal r).probability = 50) ∧
    (∀ r : RawDeal, r.value = none → keepDeal r = false) ∧
    (∀ r : RawDeal, ∀ v, r.value = some v → v ≤ 0 → keepDeal r = false) := by
  refine ⟨rfl, mem_getDealsInTimeframe_value_pos fetched, ?_, ?_, ?_⟩
  · intro r hr
    unfold convertDeal
    rw [hr]
  · intro r hr
    unfold keepDeal
    rw [hr]
  · intro r v hv hle
    rcases hk : keepDeal r with _ | _
    · rfl
    · obtain ⟨w, hw, hpos⟩ := (keepDeal_iff r).mp hk
      rw [hv] at hw
      injection hw with hvw
      exact absurd hpos (by rw [← hvw]; exact not_lt.mpr hle)

/-- C9, witness at concrete inputs. -/
theorem c9_filter_default_witness :
    0 < (convertDeal (mkRawDeal (some 100) (some 80))).value ∧
    (convertDeal (mkRawDeal (some 100) none)).probability = 50 ∧
    keepDeal (mkRawDeal none (some 50)) = false ∧
    keepDeal (mkRawDeal (some 0) (some 50)) = false ∧
    keepDeal (mkRawDeal (some (-5)) (some 50)) = false := by
  have h := c9_filter_default_theorem [mkRawDeal (some 100) (some 80)]
  have hmem : convertDeal (mkRawDeal (some 100) (some 80)) ∈
      getDealsInTimeframe [mkRawDeal (some 100) (some 80)] := by
    unfold getDealsInTimeframe
    exact List.mem_map_of_mem _ (List.mem_filter_of_mem (by simp) (by rfl))
  refine ⟨h.2.1 _ hmem, h.2.2.1 (mkRawDeal (some 100) none) rfl,
    h.2.2.2.1 (mkRawDeal none (some 50)) rfl,
    ?_,
    h.2.2.2.2 (mkRawDeal (some (-5)) (some 50)) (-5) rfl (by norm_num)⟩
  exact h.2.2.2.2 (mkRawDeal (some 0) (some 50)) 0 rfl le_rfl

/-! ## C3: the scenario ordering invariant -/

/-- C3, counterexample.  With sub-cent deal values the per-deal rounding
inflates the weighted sum above the total: two deals worth 0.006 with
probability 100 give `likely_case = 0.02 > best_case = 0.01`. -/
theorem c3_ordering_counterexample :
    (forecastRevenue [mkSampleInput (6/1000) "proposal" 100,
        mkSampleInput (6/1000) "proposal" 100] [] 30 "likely").likely_case = 1/50 ∧
    (forecastRevenue [mkSampleInput (6/1000) "proposal" 100,
        mkSampleInput (6/1000) "proposal" 100] [] 30 "likely").best_case = 1/100 ∧
    ¬ (forecastRevenue [mkSampleInput (6/1000) "proposal" 100,
          mkSampleInput (6/1000) "proposal" 100] [] 30 "likely").likely_case ≤
      (forecastRevenue [mkSampleInput (6/1000) "proposal" 100,
          mkSampleInput (6/1000) "proposal" 100] [] 30 "likely").best_case := by
  have hA : roundHalfEven ((3:ℚ)/5) = 1 := by
    have h := roundHalfEven_of_half_lt 0 ((3:ℚ)/5) (by norm_num) (by norm_num)
    simpa using h
  have hB : roundHalfEven ((6:ℚ)/5) = 1 :=
    roundHalfEven_of_lt_half 1 ((6:ℚ)/5) (by norm_num) (by norm_num)
  have h1 : (forecastRevenue [mkSampleInput (6/1000) "proposal" 100,
      mkSampleInput (6/1000) "proposal" 100] [] 30 "likely").likely_case = 1/50 := by
    norm_num [forecastRevenue, aggregateForecast, forecastDeal, adjustProbability,
      mkSampleInput, mkSampleDeal, pyRound, hA, roundHalfEven_zero, roundHalfEven_one,
      roundHalfEven_ofNat]
  have h2 : (forecastRevenue [mkSampleInput (6/1000) "proposal" 100,
      mkSampleInput (6/1000) "proposal" 100] [] 30 "likely").best_case = 1/100 := by
    norm_num [forecastRevenue, aggregateForecast, forecastDeal, adjustProbability,
      mkSampleInput, mkSampleDeal, pyRound, hB, roundHalfEven_zero, roundHalfEven_one,
      roundHalfEven_ofNat]
  refine ⟨h1, h2, ?_⟩
  rw [h1, h2]
  norm_num

/-- C3, amended.  Provided every deal value is a non-negative whole number
of cents and every probability lies in [0, 100], the ordering
`worst_case ≤ likely_case ≤ best_case` holds for every trial-free input,
timeframe and scenario. -/
theorem c3_ordering_theorem (inputs : List DealInput) (all_deals : List RawDeal)
    (days : ℚ) (scenario : String)
    (h : ∀ i ∈ inputs, 0 ≤ i.deal.value ∧ (∃ n : ℤ, i.deal.value * 100 = (n : ℚ)) ∧
          0 ≤ i.deal.probability ∧ i.deal.probability ≤ 100) :
    (forecastRevenue inputs all_deals days scenario).worst_case ≤
      (forecastRevenue inputs all_deals days scenario).likely_case ∧
    (forecastRevenue inputs all_deals days scenario).likely_case ≤
      (forecastRevenue inputs all_deals days scenario).best_case := by
  have hwle : ∀ i ∈ inputs,
      (forecastDeal i.deal i.sims i.err).weighted_value ≤
        (forecastDeal i.deal i.sims i.err).value := fun i hi => by
    rw [forecastDeal_value]
    exact forecastDeal_weighted_le_value i.deal i.sims i.err (h i hi).1 (h i hi).2.1
      (h i hi).2.2.2
  have hw0 : ∀ x ∈ (inputs.map (fun i => forecastDeal i.deal i.sims i.err)).map
      (fun d => d.weighted_value), 0 ≤ x := by
    intro x hx
    rw [List.map_map] at hx
    obtain ⟨i, hi, rfl⟩ := List.mem_map.mp hx
    exact forecastDeal_weighted_nonneg i.deal i.sims i.err (h i hi).1 (h i hi).2.2.1
  have hWsum : (0:ℚ) ≤ ((inputs.map (fun i => forecastDeal i.deal i.sims i.err)).map
      (fun d => d.weighted_value)).sum := List.sum_nonneg hw0
  have hWT : ((inputs.map (fun i => forecastDeal i.deal i.sims i.err)).map
        (fun d => d.weighted_value)).sum ≤
      ((inputs.map (fun i => forecastDeal i.deal i.sims i.err)).map
        (fun d => d.value)).sum := by
    rw [List.map_map, List.map_map]
    exact List.sum_le_sum hwle
  constructor
  · -- worst ≤ likely
    simp only [forecastRevenue, aggregateForecast]
    apply pyRound_mono
    by_cases hsc : (scenario == "worst") = true
    · have hsc2 : (scenario == "best") = false := by
        rw [beq_iff_eq] at hsc
        subst hsc
        rfl
      rw [if_pos hsc, if_neg (by simp [hsc2]), if_pos hsc]
      exact List.Sublist.sum_le_sum
        (List.Sublist.map _ (List.filter_sublist _)) hw0
    · rw [if_neg (by simp_all)]
      nlinarith [hWsum]
  · -- likely ≤ best
    simp only [forecastRevenue, aggregateForecast]
    apply pyRound_mono
    exact hWT

/-- C3, witness for the amended theorem at a concrete input. -/
theorem c3_ordering_witness :
    (forecastRevenue [mkSampleInput 100 "proposal" 50] [] 30 "likely").worst_case ≤
      (forecastRevenue [mkSampleInput 100 "proposal" 50] [] 30 "likely").likely_case ∧
    (forecastRevenue [mkSampleInput 100 "proposal" 50] [] 30 "likely").likely_case ≤
      (forecastRevenue [mkSampleInput 100 "proposal" 50] [] 30 "likely").best_case :=
  c3_ordering_theorem [mkSampleInput 100 "proposal" 50] [] 30 "likely"
    (by
      intro i hi
      simp only [List.mem_singleton] at hi
      subst hi
      refine ⟨by norm_num [mkSampleInput, mkSampleDeal],
        ⟨10000, by norm_num [mkSampleInput, mkSampleDeal]⟩,
        by norm_num [mkSampleInput, mkSampleDeal],
        by norm_num [mkSampleInput, mkSampleDeal]⟩)

/-! ## C4: monotonicity of likely_case in a single probability -/

theorem adjustProbability_mono (deal : Deal) (sims : List SimilarDeal) (p' : ℚ)
    (hp : deal.probability ≤ p') :
    adjustProbability deal sims ≤ adjustProbability { deal with probability := p' } sims := by
  simp only [adjustProbability]
  have hdiv : deal.probability / 100 ≤ p' / 100 := by linarith
  split_ifs
  · exact hdiv
  · exact hdiv
  · exact min_le_min (max_le_max (by linarith) le_rfl) le_rfl

theorem forecastDeal_weighted_mono (deal : Deal) (sims : List SimilarDeal) (err : Bool)
    (p' : ℚ) (hp : deal.probability ≤ p') (hv : 0 ≤ deal.value) :
    (forecastDeal deal sims err).weighted_value ≤
      (forecastDeal { deal with probability := p' } sims err).weighted_value := by
  cases err
  · simp only [forecastDeal, Bool.false_eq_true, if_false]
    exact pyRound_mono 2
      (mul_le_mul_of_nonneg_left (adjustProbability_mono deal sims p' hp) hv)
  · simp only [forecastDeal, if_true]
    have hdiv : deal.probability / 100 ≤ p' / 100 := by linarith
    exact mul_le_mul_of_nonneg_left hdiv hv

/-- C4.  Raising the probability of a single deal, holding everything
else fixed, never decreases `likely_case`. -/
theorem c4_monotone_theorem (pre post : List DealInput) (deal : Deal)
    (sims : List SimilarDeal) (err : Bool) (p' : ℚ)
    (all_deals : List RawDeal) (days : ℚ) (scenario : String)
    (hp : deal.probability ≤ p') (hv : 0 ≤ deal.value) :
    (forecastRevenue (pre ++ ⟨deal, sims, err⟩ :: post) all_deals days scenario).likely_case ≤
      (forecastRevenue (pre ++ ⟨{ deal with probability := p' }, sims, err⟩ :: post)
        all_deals days scenario).likely_case := by
  have hm := forecastDeal_weighted_mono deal sims err p' hp hv
  simp only [forecastRevenue, aggregateForecast, List.map_append, List.map_cons,
    List.sum_append, List.sum_cons, List.map_map]
  apply pyRound_mono
  have hpre :
      ((pre.map ((fun d => d.weighted_value) ∘ fun i => forecastDeal i.deal i.sims i.err)).sum
        : ℚ) =
      (pre.map ((fun d => d.weighted_value) ∘ fun i => forecastDeal i.deal i.sims i.err)).sum :=
    rfl
  linarith [hm]

/-- C4, witness at a concrete input. -/
theorem c4_monotone_witness :
    (forecastRevenue ([] ++ ⟨mkSampleDeal 100 "proposal" 50, [], false⟩ :: [])
        [] 30 "likely").likely_case ≤
      (forecastRevenue ([] ++
          ⟨{ mkSampleDeal 100 "proposal" 50 with probability := 80 }, [], false⟩ :: [])
        [] 30 "likely").likely_case :=
  c4_monotone_theorem [] [] (mkSampleDeal 100 "proposal" 50) [] false 80 [] 30 "likely"
    (by norm_num [mkSampleDeal]) (by norm_num [mkSampleDeal])

/-! ## C8: the confidence bound -/

theorem calculateOverallConfidence_bounds (fds : List ForecastedDeal)
    (hv : ∀ d ∈ fds, 0 ≤ d.value)
    (hc : ∀ d ∈ fds, 0 ≤ d.confidence ∧ d.confidence ≤ 1) :
    0 ≤ calculateOverallConfidence fds ∧ calculateOverallConfidence fds ≤ 1 := by
  simp only [calculateOverallConfidence]
  split_ifs with h1 h2
  · exact ⟨le_rfl, zero_le_one⟩
  · exact ⟨le_rfl, zero_le_one⟩
  · have hT0 : (0:ℚ) ≤ (fds.map (fun d => d.value)).sum := by
      apply List.sum_nonneg
      intro x hx
      obtain ⟨d, hd, rfl⟩ := List.mem_map.mp hx
      exact hv d hd
    have hT : (0:ℚ) < (fds.map (fun d => d.value)).sum := lt_of_le_of_ne hT0 (Ne.symm h2)
    have hnum0 : (0:ℚ) ≤ (fds.map (fun d => d.confidence * d.value)).sum := by
      apply List.sum_nonneg
      intro x hx
      obtain ⟨d, hd, rfl⟩ := List.mem_map.mp hx
      exact mul_nonneg (hc d hd).1 (hv d hd)
    have hnum1 : (fds.map (fun d => d.confidence * d.value)).sum ≤
        (fds.map (fun d => d.value)).sum :=
      List.sum_le_sum (fun d hd => mul_le_of_le_one_left (hv d hd) (hc d hd).2)
    exact ⟨div_nonneg hnum0 hT0, (div_le_one hT).mpr hnum1⟩

/-- C8.  For every input whose deals have non-negative values (true of
every deal passing the fetch filter), the forecast confidence lies in
[0, 1]. -/
theorem c8_confidence_theorem (inputs : List DealInput) (all_deals : List RawDeal)
    (days : ℚ) (scenario : String) (hv : ∀ i ∈ inputs, 0 ≤ i.deal.value) :
    0 ≤ (forecastRevenue inputs all_deals days scenario).confidence ∧
    (forecastRevenue inputs all_deals days scenario).confidence ≤ 1 := by
  have hb := calculateOverallConfidence_bounds
    (inputs.map (fun i => forecastDeal i.deal i.sims i.err))
    (by
      intro d hd
      obtain ⟨i, hi, rfl⟩ := List.mem_map.mp hd
      rw [forecastDeal_value]
      exact hv i hi)
    (by
      intro d hd
      obtain ⟨i, hi, rfl⟩ := List.mem_map.mp hd
      exact ⟨forecastDeal_confidence_nonneg i.deal i.sims i.err,
        forecastDeal_confidence_le_one i.deal i.sims i.err⟩)
  constructor
  · exact pyRound_nonneg 2 hb.1
  · exact pyRound_le_one 2 hb.2

/-- C8, witness at a concrete input. -/
theorem c8_confidence_witness :
    0 ≤ (forecastRevenue [mkSampleInput 100 "proposal" 50] [] 30 "likely").confidence ∧
    (forecastRevenue [mkSampleInput 100 "proposal" 50] [] 30 "likely").confidence ≤ 1 :=
  c8_confidence_theorem [mkSampleInput 100 "proposal" 50] [] 30 "likely"
    (by
      intro i hi
      simp only [List.mem_singleton] at hi
      subst hi
      norm_num [mkSampleInput, mkSampleDeal])

/-! ## C1: scenario figures versus simulated percentiles -/

theorem sorted_get_le (s : List ℚ) (hs : s.Sorted (· ≤ ·)) (i j : ℕ)
    (hij : i ≤ j) (hi : i < s.length) (hj : j < s.length) :
    s.get ⟨i, hi⟩ ≤ s.get ⟨j, hj⟩ := by
  rcases eq_or_lt_of_le hij with rfl | hlt
  · exact le_rfl
  · exact hs.rel_get_of_lt (Fin.mk_lt_mk.mpr hlt)

theorem sorted_getD_le (s : List ℚ) (hs : s.Sorted (· ≤ ·)) (i j : ℕ)
    (hij : i ≤ j) (hj : j < s.length) : s.getD i 0 ≤ s.getD j 0 := by
  have hi : i < s.length := lt_of_le_of_lt hij hj
  rw [List.getD_eq_get _ _ hi, List.getD_eq_get _ _ hj]
  exact sorted_get_le s hs i j hij hi hj

/-- In a sorted 0/100-valued array, a percentile value strictly between 0
and 100 can only arise by interpolating across a 0-to-100 jump, which
pins the fractional position exactly. -/
theorem percentile_jump (s : List ℚ) (hsort : s.Sorted (· ≤ ·))
    (hmem : ∀ x ∈ s, x = 0 ∨ x = 100) (q v : ℚ) (hs : s ≠ [])
    (hq0 : 0 ≤ q) (hq1 : q ≤ 100)
    (hv : percentileSorted s q = v) (hv0 : v ≠ 0) (hv100 : v ≠ 100) :
    pctIdx s q + 1 < s.length ∧ s.getD (pctIdx s q) 0 = 0 ∧
      s.getD (pctIdx s q + 1) 0 = 100 ∧
      pctPos s q = (pctIdx s q : ℚ) + v / 100 := by
  have hne : ¬ s.isEmpty = true := by simp [List.isEmpty_iff, hs]
  rw [percentileSorted, if_neg hne] at hv
  have hn1 : 1 ≤ s.length := List.length_pos.mpr hs
  have hL1 : (1:ℚ) ≤ (s.length : ℚ) := by exact_mod_cast hn1
  have hpos0 : 0 ≤ pctPos s q := by
    unfold pctPos
    apply div_nonneg _ (by norm_num)
    apply mul_nonneg hq0
    linarith
  have hposle : pctPos s q ≤ (s.length : ℚ) - 1 := by
    unfold pctPos
    rw [div_le_iff (by norm_num : (0:ℚ) < 100)]
    nlinarith
  have hkn : pctIdx s q < s.length := by
    have h0 : 0 ≤ ⌊pctPos s q⌋ := Int.floor_nonneg.mpr hpos0
    have h1 : ⌊pctPos s q⌋ ≤ (s.length : ℤ) - 1 := by
      have h2 := Int.floor_mono hposle
      have h3 : ((s.length : ℚ) - 1) = (((s.length : ℤ) - 1 : ℤ) : ℚ) := by push_cast; ring
      rwa [h3, Int.floor_intCast] at h2
    unfold pctIdx
    omega
  have hamem : s.getD (pctIdx s q) 0 ∈ s := by
    rw [List.getD_eq_get _ _ hkn]
    exact List.get_mem s _ _
  by_cases hab : s.getD (pctIdx s q + 1) (s.getD (pctIdx s q) 0) = s.getD (pctIdx s q) 0
  · rw [hab] at hv
    have hva : s.getD (pctIdx s q) 0 = v := by linarith [hv]
    rcases hmem _ hamem with h0 | h100
    · exact absurd (hva.symm.trans h0) hv0
    · exact absurd (hva.symm.trans h100) hv100
  · have hk1 : pctIdx s q + 1 < s.length := by
      by_contra hcon
      push_neg at hcon
      exact hab (List.getD_eq_default _ _ hcon)
    have hbswap : s.getD (pctIdx s q + 1) (s.getD (pctIdx s q) 0) =
        s.getD (pctIdx s q + 1) 0 := by
      rw [List.getD_eq_get _ _ hk1, List.getD_eq_get _ _ hk1]
    rw [hbswap] at hv hab
    have hbmem : s.getD (pctIdx s q + 1) 0 ∈ s := by
      rw [List.getD_eq_get _ _ hk1]
      exact List.get_mem s _ _
    have hle : s.getD (pctIdx s q) 0 ≤ s.getD (pctIdx s q + 1) 0 :=
      sorted_getD_le s hsort _ _ (Nat.le_succ _) hk1
    rcases hmem _ hamem with ha0 | ha100 <;> rcases hmem _ hbmem with hb0 | hb100
    · exact absurd (hb0.trans ha0.symm) hab
    · refine ⟨hk1, ha0, hb100, ?_⟩
      rw [ha0, hb100] at hv
      linarith
    · rw [ha100, hb0] at hle
      norm_num at hle
    · exact absurd (hb100.trans ha100.symm) hab

/-- C1, counterexample.  For one deal of value 100 and probability 50 the
code returns `best_case = 100`, `likely_case = 50`, `worst_case = 35`,
but no array of per-trial totals of this pipeline (each total is 0 or
100) has 100, 50 and 35 as its 95th, 50th and 5th percentiles: the
scenario values cannot come from a simulated distribution. -/
theorem c1_percentile_counterexample :
    (forecastRevenue [mkSampleInput 100 "proposal" 50] [] 30 "likely").best_case = 100 ∧
    (forecastRevenue [mkSampleInput 100 "proposal" 50] [] 30 "likely").likely_case = 50 ∧
    (forecastRevenue [mkSampleInput 100 "proposal" 50] [] 30 "likely").worst_case = 35 ∧
    ¬ ∃ totals : List ℚ, totals.Sorted (· ≤ ·) ∧
        (∀ x ∈ totals, x = 0 ∨ x = 100) ∧
        percentileSorted totals 95 =
          (forecastRevenue [mkSampleInput 100 "proposal" 50] [] 30 "likely").best_case ∧
        percentileSorted totals 50 =
          (forecastRevenue [mkSampleInput 100 "proposal" 50] [] 30 "likely").likely_case ∧
        percentileSorted totals 5 =
          (forecastRevenue [mkSampleInput 100 "proposal" 50] [] 30 "likely").worst_case := by
  have hbest : (forecastRevenue [mkSampleInput 100 "proposal" 50] [] 30 "likely").best_case
      = 100 := by
    norm_num [forecastRevenue, aggregateForecast, forecastDeal, adjustProbability,
      mkSampleInput, mkSampleDeal, pyRound, roundHalfEven_zero, roundHalfEven_one,
      roundHalfEven_ofNat]
  have hlikely : (forecastRevenue [mkSampleInput 100 "proposal" 50] [] 30 "likely").likely_case
      = 50 := by
    norm_num [forecastRevenue, aggregateForecast, forecastDeal, adjustProbability,
      mkSampleInput, mkSampleDeal, pyRound, roundHalfEven_zero, roundHalfEven_one,
      roundHalfEven_ofNat]
  have hworst : (forecastRevenue [mkSampleInput 100 "proposal" 50] [] 30 "likely").worst_case
      = 35 := by
    have hne1 : ¬ ("likely" : String) = "worst" := by decide
    have hne2 : ¬ ("likely" : String) = "best" := by decide
    norm_num [forecastRevenue, aggregateForecast, forecastDeal, adjustProbability,
      mkSampleInput, mkSampleDeal, pyRound, hne1, hne2, roundHalfEven_zero,
      roundHalfEven_one, roundHalfEven_ofNat]
  refine ⟨hbest, hlikely, hworst, ?_⟩
  rw [hlikely, hworst]
  rintro ⟨s, hsort, hmem, _, h50, h5⟩
  by_cases hs : s = []
  · subst hs
    rw [percentileSorted] at h50
    simp at h50
  · obtain ⟨hk1, hk0, hk100, he5⟩ :=
      percentile_jump s hsort hmem 5 35 hs (by norm_num) (by norm_num) h5
        (by norm_num) (by norm_num)
    obtain ⟨hm1, hm0, hm100, he50⟩ :=
      percentile_jump s hsort hmem 50 50 hs (by norm_num) (by norm_num) h50
        (by norm_num) (by norm_num)
    have hkm : pctIdx s 5 = pctIdx s 50 := by
      rcases lt_trichotomy (pctIdx s 5) (pctIdx s 50) with hlt | heq | hgt
      · have := sorted_getD_le s hsort (pctIdx s 5 + 1) (pctIdx s 50) hlt
          (lt_trans (Nat.lt_succ_self _) hm1)
        rw [hk100, hm0] at this
        norm_num at this
      · exact heq
      · have := sorted_getD_le s hsort (pctIdx s 50 + 1) (pctIdx s 5) hgt
          (lt_trans (Nat.lt_succ_self _) hk1)
        rw [hm100, hk0] at this
        norm_num at this
    rw [hkm] at he5
    unfold pctPos at he5 he50
    have hL : ((s.length : ℚ) - 1) = 1/3 := by linarith
    have h3L : (3 * s.length : ℕ) = (4 : ℕ) := by
      have h4 : (3:ℚ) * (s.length : ℚ) = 4 := by linarith
      exact_mod_cast h4
    omega

/-- C1, amended.  The scenario figures are closed-form sums, not
percentiles of a simulation: `best_case` is the rounded total pipeline
value, `likely_case` the rounded sum of weighted values, and `worst_case`
is 0.7 times the weighted sum (or, under the `worst` scenario, the
weighted sum of the deals with adjusted probability above 0.8). -/
theorem c1_scenario_formulas_theorem (inputs : List DealInput) (all_deals : List RawDeal)
    (days : ℚ) (scenario : String) :
    (forecastRevenue inputs all_deals days scenario).best_case =
      pyRound ((inputs.map (fun i => i.deal.value)).sum) 2 ∧
    (forecastRevenue inputs all_deals days scenario).likely_case =
      pyRound (((inputs.map (fun i => forecastDeal i.deal i.sims i.err)).map
        (fun d => d.weighted_value)).sum) 2 ∧
    (forecastRevenue inputs all_deals days scenario).worst_case =
      pyRound (if scenario == "worst"
          then (((inputs.map (fun i => forecastDeal i.deal i.sims i.err)).filter
              (fun d => (8:ℚ)/10 < d.adjusted_probability)).map
            (fun d => d.weighted_value)).sum
          else ((inputs.map (fun i => forecastDeal i.deal i.sims i.err)).map
            (fun d => d.weighted_value)).sum * (7/10)) 2 := by
  have hmap : (inputs.map (fun i => forecastDeal i.deal i.sims i.err)).map
      (fun d => d.value) = inputs.map (fun i => i.deal.value) := by
    rw [List.map_map]
    exact List.map_congr_left (fun i _ => forecastDeal_value i.deal i.sims i.err)
  refine ⟨?_, rfl, ?_⟩
  · simp only [forecastRevenue, aggregateForecast]
    rw [hmap]
  · simp only [forecastRevenue, aggregateForecast]
    by_cases hsc : (scenario == "worst") = true
    · have hb : (scenario == "best") = false := by
        rw [beq_iff_eq] at hsc
        subst hsc
        rfl
      rw [if_pos hsc, if_pos hsc, if_neg (by simp [hb]), if_pos hsc]
    · rw [if_neg hsc, if_neg hsc]

end VectorOS
